import Mathlib

/-!
Verification development for the font-resolution subsystem of pdf_render
(src/render/src/font.rs) and the page-navigation / size-rounding helpers of
the viewer (src/view/src/viewer.rs).

Shallow embedding: pure Rust functions become Lean functions; the stateful
parts (the standard-font cache, the fresh-allocation of reference-counted
font handles, filesystem effects and log output) become explicit state
passing over a state record that carries an allocation counter, the cache
contents and an event trace.  External collaborators (the document resolver,
the font parser, the filesystem) are parameters of the embedding, collected
in an environment record.
-/

/-- Byte strings, as lists of byte values. -/
abbrev Bytes := List Nat

/-- Table STANDARD_FONTS from font.rs: pairs of canonical font name and
asset file name, in source order. -/
def STANDARD_FONTS : List (String × String) :=
  [ ("Courier", "CourierStd.otf"),
    ("Courier-Bold", "CourierStd-Bold.otf"),
    ("Courier-Oblique", "CourierStd-Oblique.otf"),
    ("Courier-BoldOblique", "CourierStd-BoldOblique.otf"),
    ("Times-Roman", "MinionPro-Regular.otf"),
    ("Times-Bold", "MinionPro-Bold.otf"),
    ("Times-Italic", "MinionPro-It.otf"),
    ("Times-BoldItalic", "MinionPro-BoldIt.otf"),
    ("TimesNewRomanPSMT", "TimesNewRomanPSMT.ttf"),
    ("TimesNewRomanPS-BoldMT", "TimesNewRomanPS-BoldMT.otf"),
    ("TimesNewRomanPS-BoldItalicMT", "TimesNewRomanPS-BoldMT.otf"),
    ("Helvetica", "MyriadPro-Regular.otf"),
    ("Helvetica-Bold", "MyriadPro-Bold.otf"),
    ("Helvetica-Oblique", "MyriadPro-It.otf"),
    ("Helvetica-BoldOblique", "MyriadPro-BoldIt.otf"),
    ("Symbol", "SY______.PFB"),
    ("ZapfDingbats", "AdobePiStd.otf"),
    ("Arial-BoldMT", "Arial-BoldMT.otf"),
    ("ArialMT", "ArialMT.ttf"),
    ("Arial-ItalicMT", "Arial-ItalicMT.otf") ]

/-- Handle FontRc from font.rs: a reference-counted pointer to a parsed
font.  The field id models the address of the underlying shared
allocation (Arc::as_ptr); the field content models the parsed font value
it points to.  Cloning shares the id; a fresh parse gets a fresh id. -/
structure FontRc where
  id : Nat
  content : Nat
deriving DecidableEq, Repr

/-- Equality of FontRc in the source is PartialEq via Arc::as_ptr: object
identity of the shared allocation, never font content. -/
instance : BEq FontRc := ⟨fun a b => a.id == b.id⟩

/-- Hash key of FontRc in the source hashes Arc::as_ptr, i.e. the identity
of the shared allocation. -/
def fontRcHashKey (a : FontRc) : Nat := a.id

/-- Decidable equality for the Except type, used by the derived equality
of the metadata record below. -/
instance {ε α : Type} [DecidableEq ε] [DecidableEq α] : DecidableEq (Except ε α) :=
  fun a b =>
    match a, b with
    | Except.ok x, Except.ok y =>
      if h : x = y then isTrue (by rw [h]) else isFalse (by simp [h])
    | Except.ok _, Except.error _ => isFalse (by simp)
    | Except.error _, Except.ok _ => isFalse (by simp)
    | Except.error x, Except.error y =>
      if h : x = y then isTrue (by rw [h]) else isFalse (by simp [h])

/-- Font metadata obtained by dereferencing a font reference: the optional
declared name, and the optional embedded data accessor result, which may
itself fail (pdf_font.embedded_data returns Option of Result). -/
structure PdfFont where
  name : Option String
  embedded : Option (Except String Bytes)
deriving DecidableEq

/-- Modelled from the spec: FontEntry (built by FontEntry::build, whose
definition lives outside the given sources) is a richer structure built
from a FontHandle plus the document-supplied font metadata; its
construction may fail independently of font parsing and is delegated to an
external collaborator.  On success it wraps the handle it was given. -/
structure FontEntry where
  font : FontRc
  meta : PdfFont
deriving DecidableEq

/-- Observable events of one resolution: filesystem reads of standard-font
asset files, parse attempts, warning log lines, diagnostic dump writes,
and consultations of the standard-font table. -/
inductive Event where
  | fsRead (file : String)
  | parseAttempt (data : Bytes)
  | warn (msg : String)
  | dump (file : String) (data : Bytes)
  | tableLookup
deriving DecidableEq

/-- State threaded through a resolution: the next fresh allocation id for
FontRc, the standard-font cache contents (slot index to recorded optional
handle), and the trace of observable events so far. -/
structure St where
  alloc : Nat
  cache : List (Nat × Option FontRc)
  events : List Event
deriving DecidableEq

/-- Environment of external collaborators: the resolver (Resolve::get on a
font reference), the filesystem read of an asset file under the
standard-font directory (std::fs::read of standard_fonts.join(file)), the
external font parser (font::parse), whether a diagnostic dump write to a
given file name succeeds (std::fs::write), and the outcome of
FontEntry::build on given metadata (modelled from the spec: construction
may fail independently and is delegated to an external collaborator).
Parsed fonts are opaque values, modelled as Nat. -/
structure Env where
  resolve : Nat → Except String PdfFont
  fsRead : String → Option Bytes
  parse : Bytes → Except String Nat
  writeOk : String → Bool
  buildFail : PdfFont → Option String

/-- Result of load_font: a successful resolution with an optional entry, a
returned error, or a process panic (the source calls unwrap on the
diagnostic dump write). -/
inductive LoadResult where
  | ok (v : Option FontEntry)
  | err (e : String)
  | panicked (msg : String)
deriving DecidableEq

/-- Modelled from the spec: FontEntry::build wraps the handle and metadata;
construction may fail independently of font parsing. -/
def buildEntry (env : Env) (f : FontRc) (pf : PdfFont) : Except String FontEntry :=
  match env.buildFail pf with
  | some e => Except.error e
  | none => Except.ok ⟨f, pf⟩

/-- Lookup loop of font.rs line 99: STANDARD_FONTS.iter().enumerate().find
with predicate comparing the declared name against each table name, keeping
the index; the declared-name Option maps to false when absent. -/
def findIn (l : List (String × String)) (k : Nat) (n : String) : Option (Nat × String) :=
  match l with
  | [] => none
  | (nm, fl) :: rest => if n = nm then some (k, fl) else findIn rest (k + 1) n

/-- Standard-font name lookup: exact string match of the declared name
against STANDARD_FONTS, returning the slot index and asset file name. -/
def findSlot : Option String → Option (Nat × String)
  | none => none
  | some n => findIn STANDARD_FONTS 0 n

/-- Appends events to the trace. -/
def addEv (s : St) (es : List Event) : St :=
  { s with events := s.events ++ es }

/-- Computation body of the cached standard-font load (font.rs lines
101-116): read the asset file; on read failure warn and record none; on
read success parse; on parse failure warn and record none; on success
allocate a fresh FontRc and record it. -/
def computeSlot (env : Env) (file : String) (fname : Option String) (s : St) :
    Option FontRc × St :=
  let s1 := addEv s [Event.fsRead file]
  match env.fsRead file with
  | none =>
    (none, addEv s1 [Event.warn ("cannot open " ++ file ++ " for " ++ toString fname)])
  | some data =>
    let s2 := addEv s1 [Event.parseAttempt data]
    match env.parse data with
    | Except.error e => (none, addEv s2 [Event.warn ("Font Error: " ++ e)])
    | Except.ok f => (some ⟨s2.alloc, f⟩, { s2 with alloc := s2.alloc + 1 })

/-- Modelled from the spec: cachelib::sync::SyncCache::get (the crate is
not among the given sources) provides atomic compute-if-absent semantics
per key: a present entry is returned as-is; an absent entry is computed
once and the result, including a negative one, is recorded permanently
with no invalidation, eviction or refresh path. -/
def cacheGet (key : Nat) (compute : St → Option FontRc × St) (s : St) :
    Option FontRc × St :=
  match s.cache.lookup key with
  | some v => (v, s)
  | none =>
    let r := compute s
    (r.1, { r.2 with cache := (key, r.1) :: r.2.cache })

/-- Function load_font of font.rs (lines 83-133): dereference the font
reference, propagating failure as-is; with embedded data, parse it
directly (dumping the bytes to font_name on parse failure via an
unwrapped write, then returning the wrapped parse error); with an
embedded-accessor error, return it as-is; otherwise look the declared name
up in STANDARD_FONTS, perform the cached load on a hit, warn and resolve
to none on a miss; finally build the FontEntry from the obtained handle. -/
def load_font (env : Env) (fontRef : Nat) (s : St) : LoadResult × St :=
  match env.resolve fontRef with
  | Except.error e => (LoadResult.err e, s)
  | Except.ok pdf_font =>
    match pdf_font.embedded with
    | some (Except.ok data) =>
      let s1 := addEv s [Event.parseAttempt data]
      match env.parse data with
      | Except.error e =>
        let nm := "font_" ++ pdf_font.name.getD "unnamed"
        if env.writeOk nm then
          (LoadResult.err ("Font Error: " ++ e), addEv s1 [Event.dump nm data])
        else
          (LoadResult.panicked "dump write failed", s1)
      | Except.ok f =>
        let rc : FontRc := ⟨s1.alloc, f⟩
        let s2 : St := { s1 with alloc := s1.alloc + 1 }
        match buildEntry env rc pdf_font with
        | Except.error e => (LoadResult.err e, s2)
        | Except.ok entry => (LoadResult.ok (some entry), s2)
    | some (Except.error e) => (LoadResult.err e, s)
    | none =>
      let s1 := addEv s [Event.tableLookup]
      match findSlot pdf_font.name with
      | some (i, file) =>
        let r := cacheGet i (computeSlot env file pdf_font.name) s1
        match r.1 with
        | some f =>
          match buildEntry env f pdf_font with
          | Except.error e => (LoadResult.err e, r.2)
          | Except.ok entry => (LoadResult.ok (some entry), r.2)
        | none => (LoadResult.ok none, r.2)
      | none =>
        (LoadResult.ok none,
          addEv s1 [Event.warn ("no font for " ++ toString pdf_font.name)])

/-- Iterates load_font sequentially on the same reference, collecting the
results; models N resolve calls on the same slot serialised by the atomic
compute-if-absent cache. -/
def loadN (env : Env) (fontRef : Nat) : Nat → St → List LoadResult × St
  | 0, s => ([], s)
  | n + 1, s =>
    let r := load_font env fontRef s
    let rest := loadN env fontRef n r.2
    (r.1 :: rest.1, rest.2)

/-- Counts events satisfying a predicate. -/
def countE (p : Event → Bool) (l : List Event) : Nat := (l.filter p).length

/-- Predicate for filesystem-read events. -/
def isFsRead : Event → Bool
  | Event.fsRead _ => true
  | _ => false

/-- Predicate for parse-attempt events. -/
def isParse : Event → Bool
  | Event.parseAttempt _ => true
  | _ => false

/-- Predicate for warning events. -/
def isWarn : Event → Bool
  | Event.warn _ => true
  | _ => false

/-- Predicate for table-consultation events. -/
def isLookup : Event → Bool
  | Event.tableLookup => true
  | _ => false

/-- Value recorded for a slot by the computation body, as a function of the
environment, the asset file and the allocation counter at computation
time: none when the file is absent or its bytes fail to parse, otherwise a
fresh handle carrying the parsed font. -/
def slotVal (env : Env) (file : String) (baseAlloc : Nat) : Option FontRc :=
  match env.fsRead file with
  | none => none
  | some data =>
    match env.parse data with
    | Except.error _ => none
    | Except.ok f => some ⟨baseAlloc, f⟩

/-- Result of a standard-font resolution as a function of the slot value:
a recorded failure resolves to ok none, a recorded handle is passed to the
entry builder. -/
def stdResult (env : Env) (pf : PdfFont) (v : Option FontRc) : LoadResult :=
  match v with
  | none => LoadResult.ok none
  | some f =>
    match buildEntry env f pf with
    | Except.error e => LoadResult.err e
    | Except.ok entry => LoadResult.ok (some entry)

/-- Events appended by one run of the computation body. -/
def computeEvs (env : Env) (file : String) (fname : Option String) : List Event :=
  Event.fsRead file ::
    match env.fsRead file with
    | none => [Event.warn ("cannot open " ++ file ++ " for " ++ toString fname)]
    | some data =>
      Event.parseAttempt data ::
        match env.parse data with
        | Except.error e => [Event.warn ("Font Error: " ++ e)]
        | Except.ok _ => []

def missPost (env : Env) (i : Nat) (file : String) (fname : Option String) (s : St) : St :=
  { alloc := s.alloc + (if (slotVal env file s.alloc).isSome then 1 else 0)
    cache := (i, slotVal env file s.alloc) :: s.cache
    events := s.events ++ Event.tableLookup :: computeEvs env file fname }

def st0 : St := ⟨0, [], []⟩

def cPfEmb : PdfFont := ⟨some "Foo", some (Except.ok [9])⟩

def cEnvBuild : Env :=
  { resolve := fun _ => Except.ok cPfEmb
    fsRead := fun _ => none
    parse := fun _ => Except.ok 3
    writeOk := fun _ => true
    buildFail := fun _ => some "build failed" }

def cPfUnnamed : PdfFont := ⟨none, some (Except.ok [1, 2])⟩

def cPfNamed : PdfFont := ⟨some "Foo", some (Except.ok [1, 2])⟩

def cEnvDumpOk : Env :=
  { resolve := fun _ => Except.ok cPfUnnamed
    fsRead := fun _ => none
    parse := fun _ => Except.error "bad glyph"
    writeOk := fun _ => true
    buildFail := fun _ => none }

def cEnvDumpNamed : Env :=
  { cEnvDumpOk with resolve := fun _ => Except.ok cPfNamed }

def cEnvDumpFail : Env :=
  { cEnvDumpOk with writeOk := fun _ => false }

/-- Modulus of the usize machine integers of viewer.rs (64-bit). -/
def USIZE_MOD : Nat := 2 ^ 64

/-- Page-navigation fields of struct Context in viewer.rs: the current
page number, the page count, and the redraw-requested flag; both counters
are usize values, represented as Nat below USIZE_MOD. -/
structure Context where
  page_nr : Nat
  num_pages : Nat
  redraw_requested : Bool
deriving DecidableEq, Repr

/-- Wrapping usize subtraction of one, as num_pages - 1 computes in the
source in release mode: underflows to USIZE_MOD - 1 when the operand is
zero. -/
def wrapSub1 (n : Nat) : Nat := (n + (USIZE_MOD - 1)) % USIZE_MOD

/-- Method Context::goto_page of viewer.rs: clamp the requested page to
num_pages - 1, and when the clamped page differs from the current one,
move there and request a redraw. -/
def goto_page (c : Context) (page : Nat) : Context :=
  let page := min page (wrapSub1 c.num_pages)
  if page ≠ c.page_nr then { c with page_nr := page, redraw_requested := true } else c

/-- Method Context::next_page of viewer.rs: go to the saturating
successor of the current page. -/
def next_page (c : Context) : Context :=
  goto_page c (min (c.page_nr + 1) (USIZE_MOD - 1))

/-- Method Context::prev_page of viewer.rs: go to the saturating
predecessor of the current page. -/
def prev_page (c : Context) : Context :=
  goto_page c (c.page_nr - 1)

/-- Function round_to_16 of viewer.rs: (i + 15) & !0xf on i32, on the
32-bit two-complement bit pattern represented as Nat below 2^32; the mask
!0xf is the pattern 0xFFFFFFF0. -/
def round_to_16 (i : Nat) : Nat := ((i + 15) % 2 ^ 32) &&& 0xFFFFFFF0

/-- Integer vector of viewer.rs (pathfinder Vector2I), components as
32-bit patterns. -/
structure Vector2I where
  x : Nat
  y : Nat
deriving DecidableEq, Repr

/-- Function round_v_to_16 of viewer.rs: componentwise rounding. -/
def round_v_to_16 (v : Vector2I) : Vector2I :=
  ⟨round_to_16 v.x, round_to_16 v.y⟩

def cPfStd : PdfFont := ⟨some "Helvetica", none⟩

def cEnvStd : Env :=
  { resolve := fun _ => Except.ok cPfStd
    fsRead := fun f => if f = "MyriadPro-Regular.otf" then some [1, 2, 3] else none
    parse := fun d => if d = [1, 2, 3] then Except.ok 7 else Except.error "parse fail"
    writeOk := fun _ => true
    buildFail := fun _ => none }

def cEnvStdMissing : Env := { cEnvStd with fsRead := fun _ => none }

def cEnvEmb : Env :=
  { resolve := fun _ => Except.ok cPfEmb
    fsRead := fun _ => none
    parse := fun _ => Except.ok 3
    writeOk := fun _ => true
    buildFail := fun _ => none }

def cEnvDeref : Env := { cEnvEmb with resolve := fun _ => Except.error "deref fail" }

def cPfAcc : PdfFont := ⟨some "Foo", some (Except.error "acc fail")⟩

def cEnvAcc : Env := { cEnvEmb with resolve := fun _ => Except.ok cPfAcc }

def cPfWing : PdfFont := ⟨some "Wingdings", none⟩

def cEnvNoMatch : Env := { cEnvStd with resolve := fun _ => Except.ok cPfWing }

theorem addEv_cache (s : St) (es : List Event) : (addEv s es).cache = s.cache := rfl

theorem addEv_alloc (s : St) (es : List Event) : (addEv s es).alloc = s.alloc := rfl

theorem addEv_events (s : St) (es : List Event) : (addEv s es).events = s.events ++ es := rfl

theorem computeSlot_eq (env : Env) (file : String) (fname : Option String) (s : St) :
    computeSlot env file fname s =
      (slotVal env file s.alloc,
       { alloc := s.alloc + (if (slotVal env file s.alloc).isSome then 1 else 0)
         cache := s.cache
         events := s.events ++ computeEvs env file fname }) := by
  unfold computeSlot slotVal computeEvs addEv
  cases hr : env.fsRead file with
  | none => simp [hr]
  | some data =>
    cases hp : env.parse data with
    | error e => simp [hr, hp]
    | ok f => simp [hr, hp]

theorem load_std_hit (env : Env) (ref : Nat) (pf : PdfFont) (i : Nat) (file : String)
    (v : Option FontRc) (s : St)
    (h1 : env.resolve ref = Except.ok pf) (h2 : pf.embedded = none)
    (h3 : findSlot pf.name = some (i, file)) (hc : s.cache.lookup i = some v) :
    load_font env ref s = (stdResult env pf v, addEv s [Event.tableLookup]) := by
  unfold load_font
  rw [h1]
  simp only [h2, h3, cacheGet, addEv_cache, hc, stdResult]
  cases v with
  | none => rfl
  | some f => cases hb : buildEntry env f pf <;> simp [hb]

theorem load_std_miss (env : Env) (ref : Nat) (pf : PdfFont) (i : Nat) (file : String) (s : St)
    (h1 : env.resolve ref = Except.ok pf) (h2 : pf.embedded = none)
    (h3 : findSlot pf.name = some (i, file)) (hc : s.cache.lookup i = none) :
    load_font env ref s =
      (stdResult env pf (slotVal env file s.alloc), missPost env i file pf.name s) := by
  unfold load_font
  rw [h1]
  simp only [h2, h3, cacheGet, addEv_cache, hc, computeSlot_eq, addEv_alloc, missPost,
    addEv_events, stdResult, addEv]
  cases hv : slotVal env file s.alloc with
  | none => simp
  | some f =>
    simp only []
    cases hb : buildEntry env f pf <;> simp [hb]

theorem loadN_zero (env : Env) (ref : Nat) (s : St) : loadN env ref 0 s = ([], s) := rfl

theorem loadN_succ (env : Env) (ref : Nat) (n : Nat) (s : St) :
    loadN env ref (n + 1) s =
      ((load_font env ref s).1 :: (loadN env ref n (load_font env ref s).2).1,
       (loadN env ref n (load_font env ref s).2).2) := rfl

theorem loadN_hit (env : Env) (ref : Nat) (pf : PdfFont) (i : Nat) (file : String)
    (v : Option FontRc) (s : St) (n : Nat)
    (h1 : env.resolve ref = Except.ok pf) (h2 : pf.embedded = none)
    (h3 : findSlot pf.name = some (i, file)) (hc : s.cache.lookup i = some v) :
    loadN env ref n s =
      (List.replicate n (stdResult env pf v),
       { s with events := s.events ++ List.replicate n Event.tableLookup }) := by
  induction n generalizing s with
  | zero => simp [loadN_zero]
  | succ n ih =>
    rw [loadN_succ, load_std_hit env ref pf i file v s h1 h2 h3 hc]
    have hc2 : (addEv s [Event.tableLookup]).cache.lookup i = some v := hc
    rw [ih (addEv s [Event.tableLookup]) hc2]
    simp [addEv, List.replicate_succ, List.append_assoc]

theorem countE_append (p : Event → Bool) (l1 l2 : List Event) :
    countE p (l1 ++ l2) = countE p l1 + countE p l2 := by
  simp [countE, List.filter_append]

theorem countE_cons (p : Event → Bool) (e : Event) (l : List Event) :
    countE p (e :: l) = (if p e then 1 else 0) + countE p l := by
  by_cases h : p e
  · simp [countE, List.filter_cons, h]
    omega
  · simp [countE, List.filter_cons, h]

theorem countE_replicate_tl (p : Event → Bool) (hp : p Event.tableLookup = false) (n : Nat) :
    countE p (List.replicate n Event.tableLookup) = 0 := by
  induction n with
  | zero => simp [countE]
  | succ n ih =>
    rw [List.replicate_succ, countE_cons, hp, ih]
    simp

theorem computeEvs_fsRead (env : Env) (file : String) (fname : Option String) :
    countE isFsRead (computeEvs env file fname) = 1 := by
  unfold computeEvs
  cases hr : env.fsRead file with
  | none => simp [countE, isFsRead, isWarn, List.filter]
  | some data =>
    cases hp : env.parse data with
    | error e => simp [hr, hp, countE, isFsRead, List.filter]
    | ok f => simp [hr, hp, countE, isFsRead, List.filter]

theorem computeEvs_parse (env : Env) (file : String) (fname : Option String) :
    countE isParse (computeEvs env file fname) =
      (if (env.fsRead file).isSome then 1 else 0) := by
  unfold computeEvs
  cases hr : env.fsRead file with
  | none => simp [hr, countE, isParse, List.filter]
  | some data =>
    cases hp : env.parse data with
    | error e => simp [hr, hp, countE, isParse, List.filter]
    | ok f => simp [hr, hp, countE, isParse, List.filter]

theorem computeEvs_warn_fail (env : Env) (file : String) (fname : Option String) (a : Nat)
    (hv : slotVal env file a = none) :
    countE isWarn (computeEvs env file fname) = 1 := by
  unfold computeEvs
  unfold slotVal at hv
  cases hr : env.fsRead file with
  | none => simp [hr, countE, isWarn, List.filter]
  | some data =>
    cases hp : env.parse data with
    | error e => simp [hr, hp, countE, isWarn, List.filter]
    | ok f => simp [hr, hp] at hv

theorem missPost_lookup (env : Env) (i : Nat) (file : String) (fname : Option String) (s : St) :
    (missPost env i file fname s).cache.lookup i = some (slotVal env file s.alloc) := by
  simp [missPost, List.lookup]

/-- Claim C1: for a standard-font slot, the cached load computes the slot result
at most once: N resolve calls that all map to the same uncomputed slot
produce exactly one filesystem read (and one parse invocation when the
read succeeds), all calls observe the identical result, and the slot ends
up recording the single computed value. -/
theorem std_slot_at_most_once (env : Env) (ref : Nat) (pf : PdfFont) (i : Nat) (file : String)
    (s : St) (N : Nat)
    (h1 : env.resolve ref = Except.ok pf) (h2 : pf.embedded = none)
    (h3 : findSlot pf.name = some (i, file)) (hc : s.cache.lookup i = none) :
    (loadN env ref (N + 1) s).1 =
      List.replicate (N + 1) (stdResult env pf (slotVal env file s.alloc)) ∧
    countE isFsRead (loadN env ref (N + 1) s).2.events = countE isFsRead s.events + 1 ∧
    countE isParse (loadN env ref (N + 1) s).2.events =
      countE isParse s.events + (if (env.fsRead file).isSome then 1 else 0) ∧
    (loadN env ref (N + 1) s).2.cache.lookup i = some (slotVal env file s.alloc) := by
  have hmiss := load_std_miss env ref pf i file s h1 h2 h3 hc
  have hlk := missPost_lookup env i file pf.name s
  have hrest := loadN_hit env ref pf i file (slotVal env file s.alloc)
    (missPost env i file pf.name s) N h1 h2 h3 hlk
  rw [loadN_succ, hmiss]
  simp only [hrest]
  refine ⟨(List.replicate_succ _ _).symm, ?_, ?_, ?_⟩
  · simp [missPost, countE_append, countE_cons, countE_replicate_tl isFsRead rfl,
      computeEvs_fsRead, isFsRead]
  · simp [missPost, countE_append, countE_cons, countE_replicate_tl isParse rfl,
      computeEvs_parse, isParse]
  · simp [missPost, List.lookup]

theorem slotVal_none_of_fail (env : Env) (file : String) (a : Nat)
    (hfail : env.fsRead file = none ∨
      ∃ d e, env.fsRead file = some d ∧ env.parse d = Except.error e) :
    slotVal env file a = none := by
  unfold slotVal
  rcases hfail with h | ⟨d, e, hd, he⟩
  · simp [h]
  · simp [hd, he]

/-- Claim C2: negative results are cached permanently: when the asset file for a
slot is absent or its bytes fail to parse, the first resolution records
none and every subsequent sequential resolution returns ok none with no
further filesystem access and at most the one initial parse attempt; the
recorded none is still present at the end. -/
theorem negative_caching_permanent (env : Env) (ref : Nat) (pf : PdfFont) (i : Nat)
    (file : String) (s : St) (N : Nat)
    (h1 : env.resolve ref = Except.ok pf) (h2 : pf.embedded = none)
    (h3 : findSlot pf.name = some (i, file)) (hc : s.cache.lookup i = none)
    (hfail : env.fsRead file = none ∨
      ∃ d e, env.fsRead file = some d ∧ env.parse d = Except.error e) :
    (∀ r ∈ (loadN env ref (N + 1) s).1, r = LoadResult.ok none) ∧
    countE isFsRead (loadN env ref (N + 1) s).2.events = countE isFsRead s.events + 1 ∧
    countE isParse (loadN env ref (N + 1) s).2.events ≤ countE isParse s.events + 1 ∧
    (loadN env ref (N + 1) s).2.cache.lookup i = some none := by
  have hv := slotVal_none_of_fail env file s.alloc hfail
  have hmain := std_slot_at_most_once env ref pf i file s N h1 h2 h3 hc
  rw [hv] at hmain
  refine ⟨?_, hmain.2.1, ?_, hmain.2.2.2⟩
  · intro r hr
    rw [hmain.1] at hr
    have := List.eq_of_mem_replicate hr
    simpa [stdResult] using this
  · rw [hmain.2.2.1]
    cases (env.fsRead file).isSome <;> simp

/-- Claim C6: a standard-font read or parse failure is recovered locally: the
call resolves successfully to ok none, the slot records none, and exactly
one warning is logged. -/
theorem std_failure_recovered (env : Env) (ref : Nat) (pf : PdfFont) (i : Nat)
    (file : String) (s : St)
    (h1 : env.resolve ref = Except.ok pf) (h2 : pf.embedded = none)
    (h3 : findSlot pf.name = some (i, file)) (hc : s.cache.lookup i = none)
    (hfail : env.fsRead file = none ∨
      ∃ d e, env.fsRead file = some d ∧ env.parse d = Except.error e) :
    (load_font env ref s).1 = LoadResult.ok none ∧
    (load_font env ref s).2.cache.lookup i = some none ∧
    countE isWarn (load_font env ref s).2.events = countE isWarn s.events + 1 := by
  have hv := slotVal_none_of_fail env file s.alloc hfail
  rw [load_std_miss env ref pf i file s h1 h2 h3 hc]
  refine ⟨by simp [hv, stdResult], ?_, ?_⟩
  · have := missPost_lookup env i file pf.name s
    rw [hv] at this
    exact this
  · simp [missPost, countE_append, countE_cons, computeEvs_warn_fail env file pf.name s.alloc hv,
      isWarn]

theorem findIn_exact (l : List (String × String)) (k j : Nat) (n f : String)
    (h : findIn l k n = some (j, f)) :
    ∃ m, j = k + m ∧ l.get? m = some (n, f) := by
  induction l generalizing k with
  | nil => simp [findIn] at h
  | cons p rest ih =>
    obtain ⟨nm, fl⟩ := p
    unfold findIn at h
    by_cases he : n = nm
    · rw [if_pos he] at h
      obtain ⟨hj, hf⟩ := Prod.mk.injEq .. ▸ Option.some.injEq .. ▸ h
      exact ⟨0, by omega, by simp [he, ← hf]⟩
    · rw [if_neg he] at h
      obtain ⟨m, hm, hg⟩ := ih (k + 1) h
      exact ⟨m + 1, by omega, by simpa using hg⟩

theorem findIn_not_found (l : List (String × String)) (k : Nat) (n : String)
    (h : ∀ p ∈ l, p.1 ≠ n) :
    findIn l k n = none := by
  induction l generalizing k with
  | nil => rfl
  | cons p rest ih =>
    obtain ⟨nm, fl⟩ := p
    unfold findIn
    rw [if_neg ?_]
    · exact ih (k + 1) (fun q hq => h q (List.mem_cons_of_mem _ hq))
    · intro he
      exact h (nm, fl) (List.mem_cons_self ..) he.symm

theorem load_no_name_match (env : Env) (ref : Nat) (pf : PdfFont) (s : St)
    (h1 : env.resolve ref = Except.ok pf) (h2 : pf.embedded = none)
    (h3 : findSlot pf.name = none) :
    load_font env ref s =
      (LoadResult.ok none,
       addEv (addEv s [Event.tableLookup])
         [Event.warn ("no font for " ++ toString pf.name)]) := by
  unfold load_font
  rw [h1]
  simp only [h2, h3]

/-- Claim C8: standard-font name lookup is an exact string match against the
fixed STANDARD_FONTS list: a hit returns the table entry whose name
equals the declared name exactly; a declared name matching no entry, or a
missing declared name, makes load_font log one warning and resolve
successfully to ok none, with no filesystem access and the cache
untouched. -/
theorem name_lookup_exact_match (env : Env) (ref : Nat) (pf : PdfFont) (s : St)
    (h1 : env.resolve ref = Except.ok pf) (h2 : pf.embedded = none)
    (h3 : findSlot pf.name = none) :
    (load_font env ref s).1 = LoadResult.ok none ∧
    (load_font env ref s).2.cache = s.cache ∧
    countE isFsRead (load_font env ref s).2.events = countE isFsRead s.events ∧
    countE isWarn (load_font env ref s).2.events = countE isWarn s.events + 1 ∧
    findSlot none = none ∧
    (∀ n j f, findSlot (some n) = some (j, f) → STANDARD_FONTS.get? j = some (n, f)) ∧
    (∀ n, (∀ p ∈ STANDARD_FONTS, p.1 ≠ n) → findSlot (some n) = none) := by
  rw [load_no_name_match env ref pf s h1 h2 h3]
  refine ⟨rfl, rfl, ?_, ?_, rfl, ?_, ?_⟩
  · simp [addEv, countE_append, countE_cons, countE, isFsRead]
  · simp [addEv, countE_append, countE_cons, countE, isWarn]
  · intro n j f h
    obtain ⟨m, hm, hg⟩ := findIn_exact STANDARD_FONTS 0 j n f h
    rw [hm]
    simpa using hg
  · intro n h
    exact findIn_not_found STANDARD_FONTS 0 n h

theorem load_embedded_ok (env : Env) (ref : Nat) (pf : PdfFont) (d : Bytes) (f : Nat) (s : St)
    (h1 : env.resolve ref = Except.ok pf) (h2 : pf.embedded = some (Except.ok d))
    (hp : env.parse d = Except.ok f) (hb : env.buildFail pf = none) :
    load_font env ref s =
      (LoadResult.ok (some ⟨⟨s.alloc, f⟩, pf⟩),
       { alloc := s.alloc + 1, cache := s.cache,
         events := s.events ++ [Event.parseAttempt d] }) := by
  unfold load_font
  rw [h1]
  simp only [h2, hp, buildEntry, hb, addEv]

/-- Claim C5: a font reference carrying embedded byte data bypasses the
standard-font machinery entirely: the table is never consulted, no asset
file is read, the cache is left exactly as it was, and a successful parse
yields a freshly allocated handle, distinct from every handle already
recorded in the cache. -/
theorem embedded_bypass (env : Env) (ref : Nat) (pf : PdfFont) (d : Bytes) (s : St)
    (h1 : env.resolve ref = Except.ok pf) (h2 : pf.embedded = some (Except.ok d))
    (hwf : ∀ p ∈ s.cache, ∀ fr, p.2 = some fr → fr.id < s.alloc) :
    (load_font env ref s).2.cache = s.cache ∧
    countE isLookup (load_font env ref s).2.events = countE isLookup s.events ∧
    countE isFsRead (load_font env ref s).2.events = countE isFsRead s.events ∧
    (∀ f, env.parse d = Except.ok f → env.buildFail pf = none →
      (load_font env ref s).1 = LoadResult.ok (some ⟨⟨s.alloc, f⟩, pf⟩) ∧
      ∀ p ∈ s.cache, ∀ fr, p.2 = some fr → ((⟨s.alloc, f⟩ : FontRc) == fr) = false) := by
  have hstate : (load_font env ref s).2.cache = s.cache ∧
      countE isLookup (load_font env ref s).2.events = countE isLookup s.events ∧
      countE isFsRead (load_font env ref s).2.events = countE isFsRead s.events := by
    unfold load_font
    rw [h1]
    simp only [h2]
    cases hp : env.parse d with
    | error e =>
      cases hw : env.writeOk ("font_" ++ pf.name.getD "unnamed") with
      | false => simp [addEv, countE_append, countE_cons, countE, isLookup, isFsRead]
      | true => simp [addEv, countE_append, countE_cons, countE, isLookup, isFsRead]
    | ok f =>
      cases hb : env.buildFail pf with
      | none => simp [buildEntry, hb, addEv, countE_append, countE_cons, countE, isLookup, isFsRead]
      | some e => simp [buildEntry, hb, addEv, countE_append, countE_cons, countE, isLookup, isFsRead]
  refine ⟨hstate.1, hstate.2.1, hstate.2.2, ?_⟩
  intro f hp hb
  rw [load_embedded_ok env ref pf d f s h1 h2 hp hb]
  refine ⟨rfl, ?_⟩
  intro p hpmem fr hfr
  have hlt := hwf p hpmem fr hfr
  show (s.alloc == fr.id) = false
  simp
  omega

/-- Claim C4: FontRc equality is object identity of the shared allocation: two
handles are equal exactly when they share the allocation id, and the hash
key is that id; two resolutions of the same standard-font slot hand out
the identical entry (same handle by identity), while two embedded parses
of byte-identical blobs from two references produce non-equal handles. -/
theorem fontrc_identity_equality :
    (∀ a b : FontRc, (a == b) = true ↔ a.id = b.id) ∧
    (∀ a : FontRc, fontRcHashKey a = a.id) ∧
    (∀ (env : Env) (ref : Nat) (pf : PdfFont) (i : Nat) (file : String) (s : St) (d : Bytes)
      (f : Nat),
      env.resolve ref = Except.ok pf → pf.embedded = none →
      findSlot pf.name = some (i, file) → s.cache.lookup i = none →
      env.fsRead file = some d → env.parse d = Except.ok f → env.buildFail pf = none →
      ∃ en, (load_font env ref s).1 = LoadResult.ok (some en) ∧
        (load_font env ref (load_font env ref s).2).1 = LoadResult.ok (some en)) ∧
    (∀ (env : Env) (refA refB : Nat) (pfA pfB : PdfFont) (d : Bytes) (fA fB : Nat) (s : St),
      env.resolve refA = Except.ok pfA → env.resolve refB = Except.ok pfB →
      pfA.embedded = some (Except.ok d) → pfB.embedded = some (Except.ok d) →
      env.parse d = Except.ok fA → env.parse d = Except.ok fB →
      env.buildFail pfA = none → env.buildFail pfB = none →
      ∃ en1 en2,
        (load_font env refA s).1 = LoadResult.ok (some en1) ∧
        (load_font env refB (load_font env refA s).2).1 = LoadResult.ok (some en2) ∧
        (en1.font == en2.font) = false ∧ en1.font.id ≠ en2.font.id) := by
  refine ⟨?_, fun a => rfl, ?_, ?_⟩
  · intro a b
    show (a.id == b.id) = true ↔ a.id = b.id
    simp
  · intro env ref pf i file s d f h1 h2 h3 hc hd hp hb
    have hv : slotVal env file s.alloc = some ⟨s.alloc, f⟩ := by
      simp [slotVal, hd, hp]
    have hm := load_std_miss env ref pf i file s h1 h2 h3 hc
    have hlk := missPost_lookup env i file pf.name s
    rw [hv] at hlk
    have hh := load_std_hit env ref pf i file (some ⟨s.alloc, f⟩)
      (missPost env i file pf.name s) h1 h2 h3 hlk
    refine ⟨⟨⟨s.alloc, f⟩, pf⟩, ?_, ?_⟩
    · rw [hm, hv]
      simp [stdResult, buildEntry, hb]
    · rw [hm]
      simp only []
      rw [hh]
      simp [stdResult, buildEntry, hb]
  · intro env refA refB pfA pfB d fA fB s hA hB heA heB hpA hpB hbA hbB
    have h1 := load_embedded_ok env refA pfA d fA s hA heA hpA hbA
    refine ⟨⟨⟨s.alloc, fA⟩, pfA⟩, ⟨⟨s.alloc + 1, fB⟩, pfB⟩, ?_, ?_, ?_, ?_⟩
    · rw [h1]
    · rw [h1]
      rw [load_embedded_ok env refB pfB d fB _ hB heB hpB hbB]
    · show (s.alloc == s.alloc + 1) = false
      simp
    · simp

/-- Claim C7 (amended): resolver dereference failures and embedded-accessor
failures are propagated unchanged, and an error return arises only from
one of these, from an embedded-bytes parse failure (wrapped with the
original detail), or from a failure of FontEntry::build on the resolved
font, likewise propagated unchanged. -/
theorem error_propagation_amended (env : Env) (ref : Nat) (s : St) :
    (∀ e, env.resolve ref = Except.error e → (load_font env ref s).1 = LoadResult.err e) ∧
    (∀ pf e, env.resolve ref = Except.ok pf → pf.embedded = some (Except.error e) →
      (load_font env ref s).1 = LoadResult.err e) ∧
    (∀ e, (load_font env ref s).1 = LoadResult.err e →
      env.resolve ref = Except.error e ∨
      ∃ pf, env.resolve ref = Except.ok pf ∧
        (pf.embedded = some (Except.error e) ∨
         (∃ d pe, pf.embedded = some (Except.ok d) ∧ env.parse d = Except.error pe ∧
            e = "Font Error: " ++ pe) ∨
         env.buildFail pf = some e)) := by
  refine ⟨?_, ?_, ?_⟩
  · intro e h
    unfold load_font
    rw [h]
  · intro pf e h1 h2
    unfold load_font
    rw [h1]
    simp only [h2]
  · intro e h
    unfold load_font at h
    cases hres : env.resolve ref with
    | error e2 =>
      rw [hres] at h
      simp only [LoadResult.err.injEq] at h
      subst h
      left
      rfl
    | ok pf =>
      simp only [hres] at h
      right
      refine ⟨pf, rfl, ?_⟩
      cases hemb : pf.embedded with
      | none =>
        simp only [hemb] at h
        cases hfs : findSlot pf.name with
        | none => simp [hfs] at h
        | some pr =>
          obtain ⟨i, file⟩ := pr
          simp only [hfs] at h
          cases hv : (cacheGet i (computeSlot env file pf.name)
              (addEv s [Event.tableLookup])).1 with
          | none => simp [hv] at h
          | some f =>
            simp only [hv] at h
            cases hbf : env.buildFail pf with
            | none => simp [buildEntry, hbf] at h
            | some e2 =>
              simp only [buildEntry, hbf, LoadResult.err.injEq] at h
              subst h
              right; right
              rfl
      | some r =>
        cases r with
        | error e2 =>
          simp only [hemb, LoadResult.err.injEq] at h
          subst h
          left
          rfl
        | ok d =>
          simp only [hemb] at h
          cases hp : env.parse d with
          | error pe =>
            simp only [hp] at h
            cases hw : env.writeOk ("font_" ++ pf.name.getD "unnamed") with
            | true =>
              simp [hw] at h
              right; left
              exact ⟨d, pe, rfl, hp, h.symm⟩
            | false => simp [hw] at h
          | ok f =>
            simp only [hp] at h
            cases hbf : env.buildFail pf with
            | none => simp [buildEntry, hbf] at h
            | some e2 =>
              simp only [buildEntry, hbf, LoadResult.err.injEq] at h
              subst h
              right; right
              rfl

/-- Claim C7 counterexample: a resolution in which the dereference succeeds, the
embedded-data accessor succeeds and the embedded bytes parse successfully
still aborts with an error, because FontEntry::build fails; so the
dereference failure and the accessor failure are not the only aborts
besides an embedded parse failure. -/
theorem error_propagation_counterexample :
    cEnvBuild.resolve 0 = Except.ok cPfEmb ∧
    cPfEmb.embedded = some (Except.ok [9]) ∧
    cEnvBuild.parse [9] = Except.ok 3 ∧
    (load_font cEnvBuild 0 st0).1 = LoadResult.err "build failed" :=
  ⟨rfl, rfl, rfl, rfl⟩

/-- Claim C3 evaluation: when embedded bytes fail to parse and the dump write
succeeds, load_font dumps the exact input bytes to font_name (the
declared name, or unnamed) and returns the wrapped original parse error;
but when the dump write itself fails, the source unwraps the write result
and the process panics, so the original parse error is masked instead of
being returned. -/
theorem embedded_parse_dump_evaluated :
    (load_font cEnvDumpOk 0 st0).1 = LoadResult.err "Font Error: bad glyph" ∧
    (load_font cEnvDumpOk 0 st0).2.events =
      [Event.parseAttempt [1, 2], Event.dump "font_unnamed" [1, 2]] ∧
    (load_font cEnvDumpNamed 0 st0).2.events =
      [Event.parseAttempt [1, 2], Event.dump "font_Foo" [1, 2]] ∧
    (load_font cEnvDumpFail 0 st0).1 = LoadResult.panicked "dump write failed" :=
  ⟨rfl, rfl, rfl, rfl⟩

theorem goto_page_page_nr (c : Context) (p : Nat) :
    (goto_page c p).page_nr = min p (wrapSub1 c.num_pages) := by
  unfold goto_page
  by_cases h : min p (wrapSub1 c.num_pages) ≠ c.page_nr
  · rw [if_pos h]
  · rw [if_neg h]
    push_neg at h
    exact h.symm

theorem goto_page_num_pages (c : Context) (p : Nat) :
    (goto_page c p).num_pages = c.num_pages := by
  unfold goto_page
  by_cases h : min p (wrapSub1 c.num_pages) ≠ c.page_nr <;> simp [h]

theorem wrapSub1_of_pos (n : Nat) (h1 : 1 ≤ n) (h2 : n < USIZE_MOD) :
    wrapSub1 n = n - 1 := by
  unfold wrapSub1 USIZE_MOD at *
  omega

/-- Claim C9: with at least one page, goto_page clamps the requested page to
min(p, num_pages - 1), so page_nr < num_pages holds afterwards and
next_page and prev_page keep it; with num_pages equal to zero the
subtraction num_pages - 1 wraps around to USIZE_MOD - 1, and goto_page
can leave page_nr at or above num_pages, breaking the bound. -/
theorem goto_page_clamps (c : Context) (p : Nat) (hn : c.num_pages < USIZE_MOD) :
    (1 ≤ c.num_pages →
      (goto_page c p).page_nr = min p (c.num_pages - 1) ∧
      (goto_page c p).page_nr < c.num_pages ∧
      (next_page (goto_page c p)).page_nr < c.num_pages ∧
      (prev_page (goto_page c p)).page_nr < c.num_pages) ∧
    (c.num_pages = 0 →
      wrapSub1 c.num_pages = USIZE_MOD - 1 ∧
      (goto_page c 5).page_nr = 5 ∧ ¬ (goto_page c 5).page_nr < c.num_pages) := by
  constructor
  · intro h1
    have hw := wrapSub1_of_pos c.num_pages h1 hn
    have hgp := goto_page_page_nr c p
    rw [hw] at hgp
    have hnum := goto_page_num_pages c p
    refine ⟨hgp, by omega, ?_, ?_⟩
    · unfold next_page
      rw [goto_page_page_nr, hnum, hw]
      have : USIZE_MOD = 2 ^ 64 := rfl
      omega
    · unfold prev_page
      rw [goto_page_page_nr, hnum, hw]
      omega
  · intro h0
    have hw : wrapSub1 c.num_pages = USIZE_MOD - 1 := by
      unfold wrapSub1 USIZE_MOD at *
      omega
    have hgp := goto_page_page_nr c 5
    rw [hw] at hgp
    have h5 : min 5 (USIZE_MOD - 1) = 5 := by
      unfold USIZE_MOD
      omega
    rw [h5] at hgp
    exact ⟨hw, hgp, by omega⟩

theorem land_mask16 (x : Nat) (hx : x < 2 ^ 32) :
    x &&& 0xFFFFFFF0 = x / 16 * 16 := by
  have hm : (0xFFFFFFF0 : Nat) = (2 ^ 28 - 1) <<< 4 := by
    norm_num [Nat.shiftLeft_eq]
  have hr : x / 16 * 16 = (x >>> 4) <<< 4 := by
    norm_num [Nat.shiftRight_eq_div_pow, Nat.shiftLeft_eq]
  rw [hm, hr]
  apply Nat.eq_of_testBit_eq
  intro j
  rw [Nat.testBit_land, Nat.testBit_shiftLeft, Nat.testBit_shiftLeft, Nat.testBit_shiftRight,
    Nat.testBit_two_pow_sub_one]
  by_cases h4 : 4 ≤ j
  · by_cases h32 : j < 32
    · have : j - 4 < 28 := by omega
      have h44 : 4 + (j - 4) = j := by omega
      simp [h4, this, h44]
    · have hb : x.testBit j = false := Nat.testBit_lt_two_pow (by
        calc x < 2 ^ 32 := hx
        _ ≤ 2 ^ j := Nat.pow_le_pow_right (by norm_num) (by omega))
      have hb2 : x.testBit (4 + (j - 4)) = false := by
        rw [(by omega : 4 + (j - 4) = j)]
        exact hb
      simp [hb, hb2]
  · simp [h4]

/-- Claim C10: for 0 <= i <= i32 MAX - 15, round_to_16 returns the smallest
multiple of 16 greater than or equal to i, and round_v_to_16 applies the
rounding independently to each vector component. -/
theorem round_to_16_correct (i : Nat) (h : i ≤ 2 ^ 31 - 16) :
    16 ∣ round_to_16 i ∧
    i ≤ round_to_16 i ∧
    (∀ m, 16 ∣ m → i ≤ m → round_to_16 i ≤ m) ∧
    (∀ v : Vector2I, (round_v_to_16 v).x = round_to_16 v.x ∧
      (round_v_to_16 v).y = round_to_16 v.y) := by
  have hlt : i + 15 < 2 ^ 32 := by omega
  have hmod : (i + 15) % 2 ^ 32 = i + 15 := Nat.mod_eq_of_lt hlt
  have hval : round_to_16 i = (i + 15) / 16 * 16 := by
    unfold round_to_16
    rw [hmod]
    exact land_mask16 (i + 15) hlt
  rw [hval]
  refine ⟨⟨(i + 15) / 16, Nat.mul_comm _ _⟩, by omega, ?_, fun v => ⟨rfl, rfl⟩⟩
  intro m hdvd hle
  rw [Nat.dvd_iff_mod_eq_zero] at hdvd
  omega

theorem std_slot_at_most_once_witness :
    (loadN cEnvStd 0 2 st0).1 =
      List.replicate 2 (stdResult cEnvStd cPfStd (slotVal cEnvStd "MyriadPro-Regular.otf" 0)) ∧
    countE isFsRead (loadN cEnvStd 0 2 st0).2.events = countE isFsRead st0.events + 1 ∧
    countE isParse (loadN cEnvStd 0 2 st0).2.events =
      countE isParse st0.events +
        (if (cEnvStd.fsRead "MyriadPro-Regular.otf").isSome then 1 else 0) ∧
    (loadN cEnvStd 0 2 st0).2.cache.lookup 11 =
      some (slotVal cEnvStd "MyriadPro-Regular.otf" 0) :=
  std_slot_at_most_once cEnvStd 0 cPfStd 11 "MyriadPro-Regular.otf" st0 1 rfl rfl
    (by decide) rfl

theorem negative_caching_permanent_witness :
    (∀ r ∈ (loadN cEnvStdMissing 0 2 st0).1, r = LoadResult.ok none) ∧
    countE isFsRead (loadN cEnvStdMissing 0 2 st0).2.events = countE isFsRead st0.events + 1 ∧
    countE isParse (loadN cEnvStdMissing 0 2 st0).2.events ≤ countE isParse st0.events + 1 ∧
    (loadN cEnvStdMissing 0 2 st0).2.cache.lookup 11 = some none :=
  negative_caching_permanent cEnvStdMissing 0 cPfStd 11 "MyriadPro-Regular.otf" st0 1 rfl rfl
    (by decide) rfl (Or.inl rfl)

theorem std_failure_recovered_witness :
    (load_font cEnvStdMissing 0 st0).1 = LoadResult.ok none ∧
    (load_font cEnvStdMissing 0 st0).2.cache.lookup 11 = some none ∧
    countE isWarn (load_font cEnvStdMissing 0 st0).2.events = countE isWarn st0.events + 1 :=
  std_failure_recovered cEnvStdMissing 0 cPfStd 11 "MyriadPro-Regular.otf" st0 rfl rfl
    (by decide) rfl (Or.inl rfl)

theorem fontrc_identity_equality_witness :
    (∃ en, (load_font cEnvStd 0 st0).1 = LoadResult.ok (some en) ∧
      (load_font cEnvStd 0 (load_font cEnvStd 0 st0).2).1 = LoadResult.ok (some en)) ∧
    (∃ en1 en2, (load_font cEnvEmb 0 st0).1 = LoadResult.ok (some en1) ∧
      (load_font cEnvEmb 1 (load_font cEnvEmb 0 st0).2).1 = LoadResult.ok (some en2) ∧
      (en1.font == en2.font) = false ∧ en1.font.id ≠ en2.font.id) :=
  ⟨fontrc_identity_equality.2.2.1 cEnvStd 0 cPfStd 11 "MyriadPro-Regular.otf" st0 [1, 2, 3] 7
      rfl rfl (by decide) rfl (by decide) (by decide) rfl,
   fontrc_identity_equality.2.2.2 cEnvEmb 0 1 cPfEmb cPfEmb [9] 3 3 st0
      rfl rfl rfl rfl rfl rfl rfl rfl⟩

theorem embedded_bypass_witness :
    (load_font cEnvEmb 0 st0).2.cache = st0.cache ∧
    countE isLookup (load_font cEnvEmb 0 st0).2.events = countE isLookup st0.events ∧
    countE isFsRead (load_font cEnvEmb 0 st0).2.events = countE isFsRead st0.events ∧
    (∀ f, cEnvEmb.parse [9] = Except.ok f → cEnvEmb.buildFail cPfEmb = none →
      (load_font cEnvEmb 0 st0).1 = LoadResult.ok (some ⟨⟨st0.alloc, f⟩, cPfEmb⟩) ∧
      ∀ p ∈ st0.cache, ∀ fr, p.2 = some fr →
        ((⟨st0.alloc, f⟩ : FontRc) == fr) = false) :=
  embedded_bypass cEnvEmb 0 cPfEmb [9] st0 rfl rfl
    (fun p hp => absurd hp (List.not_mem_nil p))

theorem error_propagation_amended_witness :
    (load_font cEnvDeref 0 st0).1 = LoadResult.err "deref fail" ∧
    (load_font cEnvAcc 0 st0).1 = LoadResult.err "acc fail" :=
  ⟨(error_propagation_amended cEnvDeref 0 st0).1 "deref fail" rfl,
   (error_propagation_amended cEnvAcc 0 st0).2.1 cPfAcc "acc fail" rfl rfl⟩

theorem name_lookup_exact_match_witness :
    (load_font cEnvNoMatch 0 st0).1 = LoadResult.ok none ∧
    (load_font cEnvNoMatch 0 st0).2.cache = st0.cache ∧
    countE isFsRead (load_font cEnvNoMatch 0 st0).2.events = countE isFsRead st0.events ∧
    countE isWarn (load_font cEnvNoMatch 0 st0).2.events = countE isWarn st0.events + 1 ∧
    findSlot none = none ∧
    (∀ n j f, findSlot (some n) = some (j, f) → STANDARD_FONTS.get? j = some (n, f)) ∧
    (∀ n, (∀ p ∈ STANDARD_FONTS, p.1 ≠ n) → findSlot (some n) = none) :=
  name_lookup_exact_match cEnvNoMatch 0 cPfWing st0 rfl rfl (by decide)

theorem goto_page_clamps_witness :
    (1 ≤ (⟨0, 3, false⟩ : Context).num_pages →
      (goto_page ⟨0, 3, false⟩ 7).page_nr = min 7 ((⟨0, 3, false⟩ : Context).num_pages - 1) ∧
      (goto_page ⟨0, 3, false⟩ 7).page_nr < (⟨0, 3, false⟩ : Context).num_pages ∧
      (next_page (goto_page ⟨0, 3, false⟩ 7)).page_nr < (⟨0, 3, false⟩ : Context).num_pages ∧
      (prev_page (goto_page ⟨0, 3, false⟩ 7)).page_nr < (⟨0, 3, false⟩ : Context).num_pages) ∧
    ((⟨0, 3, false⟩ : Context).num_pages = 0 →
      wrapSub1 (⟨0, 3, false⟩ : Context).num_pages = USIZE_MOD - 1 ∧
      (goto_page ⟨0, 3, false⟩ 5).page_nr = 5 ∧
      ¬ (goto_page ⟨0, 3, false⟩ 5).page_nr < (⟨0, 3, false⟩ : Context).num_pages) :=
  goto_page_clamps ⟨0, 3, false⟩ 7 (by norm_num [USIZE_MOD])

theorem round_to_16_correct_witness :
    16 ∣ round_to_16 100 ∧
    100 ≤ round_to_16 100 ∧
    (∀ m, 16 ∣ m → 100 ≤ m → round_to_16 100 ≤ m) ∧
    (∀ v : Vector2I, (round_v_to_16 v).x = round_to_16 v.x ∧
      (round_v_to_16 v).y = round_to_16 v.y) :=
  round_to_16_correct 100 (by norm_num)
